import Mathlib

/-!
Shallow embedding of `src/quark_plugin_graph_visualizer/graph_visualizer.py`
(the QUARK graph-visualizer plugin).

The component is a dataclass `GraphVisualizer` with ten configuration fields
and an instance attribute `g` set by `preprocess` and read by `postprocess`.
`preprocess` stores the incoming graph and returns it unchanged.
`postprocess` partitions nodes and edges into included/excluded according to
the configured `solution_type` ("path" or "set"), issues a fixed sequence of
drawing calls (modelled here as a trace of `DrawCmd` values), and returns the
solution unchanged.  A `solution_type` other than "path"/"set" raises a
`ValueError` carrying the offending value; reading the missing attribute `g`
before `preprocess` raises an `AttributeError`.  Both are modelled with
`Except`.

Node identifiers are opaque values compared for equality, modelled by a type
parameter `α` with decidable equality.  The networkx graph is modelled by its
node list and edge list (`NxGraph`).  The float `edge_width` is modelled as a
rational; the literal `0.8` of the source is the exact rational `4 / 5`.
-/

variable {α : Type} [DecidableEq α]

/-- A networkx graph as the code observes it: `g.nodes()` and `g.edges()`. -/
structure NxGraph (α : Type) where
  nodes : List α
  edges : List (α × α)
deriving DecidableEq

/-- One entry of the matplotlib legend (`Line2D(...)` keyword arguments that
the code sets). -/
structure LegendEntry where
  marker : String
  ls : String
  color : String
  label : String
  markerfacecolor : String
  markeredgewidth : ℚ
  markersize : Nat
deriving DecidableEq

/-- One drawing side effect of `postprocess`, in the order the code issues
them: `nx.draw_networkx_nodes`, `nx.draw_networkx_labels`,
`nx.draw_networkx_edges`, `plt.legend`, `plt.savefig`, `plt.show`. -/
inductive DrawCmd (α : Type) where
  | draw_networkx_nodes (nodelist : List α) (node_size : Nat) (node_color : String)
  | draw_networkx_labels (labels : List α) (font_size : Nat) (bold : Bool) (font_color : String)
  | draw_networkx_edges (edgelist : List (α × α)) (width : ℚ) (edge_color : String)
  | plt_legend (handles : List LegendEntry)
  | plt_savefig (path : String)
  | plt_show
deriving DecidableEq

/-- Errors `postprocess` can raise: the `ValueError` of the `else` branch
(carrying the invalid `solution_type` value interpolated into its message),
and the `AttributeError` from reading `self.g` before `preprocess` set it. -/
inductive VisError where
  | valueError (invalid_solution_type : String)
  | attributeError
deriving DecidableEq

/-- The `GraphVisualizer` dataclass: its ten configuration fields with the
source defaults, plus the instance attribute `g` (absent until `preprocess`
runs, modelled as an `Option`). -/
structure GraphVisualizer (α : Type) where
  highlight_nodes : Bool := false
  highlight_edges : Bool := false
  node_size : Nat := 300
  node_shape : String := "o"
  edge_width : ℚ := 1
  edge_style : String := "solid"
  font_size : Nat := 12
  solution_type : String := "path"
  save_path : String := ""
  show_plot : Bool := true
  g : Option (NxGraph α) := none
deriving DecidableEq

/-- `preprocess`: stores the graph in `self.g` and returns the input
unchanged (`return Data(data)`). -/
def preprocess (v : GraphVisualizer α) (data : NxGraph α) :
    GraphVisualizer α × NxGraph α :=
  ({ v with g := some data }, data)

/-- `included_nodes = [node for node in self.g.nodes() if node in data.data]` -/
def includedNodes (g : NxGraph α) (data : List α) : List α :=
  g.nodes.filter (fun node => decide (node ∈ data))

/-- `excluded_nodes = [node for node in self.g.nodes() if node not in data.data]` -/
def excludedNodes (g : NxGraph α) (data : List α) : List α :=
  g.nodes.filter (fun node => !decide (node ∈ data))

/-- The consecutive pairs
`[(data.data[i], data.data[i + 1]) for i in range(len(data.data) - 1)]`. -/
def consecutivePairs : List α → List (α × α)
  | a :: b :: rest => (a, b) :: consecutivePairs (b :: rest)
  | _ => []

/-- The path-mode implied `edge_list`: consecutive pairs, and when
`len(data.data) > 2` also the closing pair `(data.data[-1], data.data[0])`. -/
def pathEdgeList (data : List α) : List (α × α) :=
  if 2 < data.length then
    match data.getLast?, data.head? with
    | some lst, some fst => consecutivePairs data ++ [(lst, fst)]
    | _, _ => consecutivePairs data
  else consecutivePairs data

/-- Path mode:
`included_edges = [e for e in self.g.edges() if e in edge_list or (e[1], e[0]) in edge_list]` -/
def includedEdgesPath (g : NxGraph α) (data : List α) : List (α × α) :=
  g.edges.filter
    (fun e => decide (e ∈ pathEdgeList data) || decide ((e.2, e.1) ∈ pathEdgeList data))

/-- Path mode: `excluded_edges = [e for e in self.g.edges() if e not in included_edges]` -/
def excludedEdgesPath (g : NxGraph α) (data : List α) : List (α × α) :=
  g.edges.filter (fun e => !decide (e ∈ includedEdgesPath g data))

/-- Set mode:
`included_edges = [e for e in self.g.edges() if e[0] in data.data and e[1] in data.data]` -/
def includedEdgesSet (g : NxGraph α) (data : List α) : List (α × α) :=
  g.edges.filter (fun e => decide (e.1 ∈ data) && decide (e.2 ∈ data))

/-- Set mode: `excluded_edges = [e for e in self.g.edges() if e not in included_edges]` -/
def excludedEdgesSet (g : NxGraph α) (data : List α) : List (α × α) :=
  g.edges.filter (fun e => !decide (e ∈ includedEdgesSet g data))

/-- `mark_solution_nodes = "red" if self.highlight_nodes else "black"` -/
def mark_solution_nodes (v : GraphVisualizer α) : String :=
  if v.highlight_nodes then "red" else "black"

/-- `mark_solution_edges = "red" if self.highlight_edges else "black"` -/
def mark_solution_edges (v : GraphVisualizer α) : String :=
  if v.highlight_edges then "red" else "black"

/-- The `legend_elements` list of the source: two `Line2D` handles labelled
"Included" and "Excluded". -/
def legend_elements (v : GraphVisualizer α) : List LegendEntry :=
  [{ marker := v.node_shape, ls := v.edge_style, color := mark_solution_edges v,
     label := "Included", markerfacecolor := mark_solution_nodes v,
     markeredgewidth := 0, markersize := 10 },
   { marker := v.node_shape, ls := v.edge_style, color := "black",
     label := "Excluded", markerfacecolor := "black",
     markeredgewidth := 0, markersize := 10 }]

/-- The drawing-call sequence of `postprocess` after edge classification, in
source order.  The label dictionaries `included_pos` / `excluded_pos` are
keyed by the nodes of `pos` (all graph nodes, in node order) filtered by
solution membership; included labels are bold, excluded regular, both white.
Excluded edges are drawn at `self.edge_width * 0.8`, included at full width.
The legend is drawn only when a highlight flag is set, the figure is saved
only when `save_path` is nonempty, and shown only when `show_plot` is set. -/
def renderTrace (v : GraphVisualizer α) (g : NxGraph α) (data : List α)
    (included_edges excluded_edges : List (α × α)) : List (DrawCmd α) :=
  [DrawCmd.draw_networkx_nodes (includedNodes g data) v.node_size (mark_solution_nodes v),
   DrawCmd.draw_networkx_nodes (excludedNodes g data) v.node_size "black",
   DrawCmd.draw_networkx_labels (includedNodes g data) v.font_size true "white",
   DrawCmd.draw_networkx_labels (excludedNodes g data) v.font_size false "white",
   DrawCmd.draw_networkx_edges excluded_edges (v.edge_width * (4 / 5)) "black",
   DrawCmd.draw_networkx_edges included_edges v.edge_width (mark_solution_edges v)]
  ++ (if v.highlight_nodes || v.highlight_edges then [DrawCmd.plt_legend (legend_elements v)] else [])
  ++ (if v.save_path ≠ "" then [DrawCmd.plt_savefig v.save_path] else [])
  ++ (if v.show_plot then [DrawCmd.plt_show] else [])

/-- `postprocess`: reads `self.g` (an `AttributeError` if `preprocess` never
ran), classifies edges according to `solution_type` ("path" / "set", anything
else a `ValueError` carrying the value, raised before any drawing call),
issues the drawing calls, and returns the solution unchanged
(`return Data(data)`). -/
def postprocess (v : GraphVisualizer α) (data : List α) :
    Except VisError (List (DrawCmd α) × List α) :=
  match v.g with
  | none => .error .attributeError
  | some g =>
    if v.solution_type = "path" then
      .ok (renderTrace v g data (includedEdgesPath g data) (excludedEdgesPath g data), data)
    else if v.solution_type = "set" then
      .ok (renderTrace v g data (includedEdgesSet g data) (excludedEdgesSet g data), data)
    else
      .error (.valueError v.solution_type)

/-! ## Membership characterizations of the computed partitions -/

theorem mem_includedNodes (g : NxGraph α) (data : List α) (n : α) :
    n ∈ includedNodes g data ↔ n ∈ g.nodes ∧ n ∈ data := by
  simp [includedNodes]

theorem mem_excludedNodes (g : NxGraph α) (data : List α) (n : α) :
    n ∈ excludedNodes g data ↔ n ∈ g.nodes ∧ n ∉ data := by
  simp [excludedNodes]

theorem mem_includedEdgesSet (g : NxGraph α) (data : List α) (e : α × α) :
    e ∈ includedEdgesSet g data ↔ e ∈ g.edges ∧ e.1 ∈ data ∧ e.2 ∈ data := by
  simp [includedEdgesSet]

theorem mem_excludedEdgesSet (g : NxGraph α) (data : List α) (e : α × α) :
    e ∈ excludedEdgesSet g data ↔ e ∈ g.edges ∧ ¬(e.1 ∈ data ∧ e.2 ∈ data) := by
  simp [excludedEdgesSet, mem_includedEdgesSet]
  tauto

theorem mem_includedEdgesPath (g : NxGraph α) (data : List α) (e : α × α) :
    e ∈ includedEdgesPath g data ↔
      e ∈ g.edges ∧ (e ∈ pathEdgeList data ∨ (e.2, e.1) ∈ pathEdgeList data) := by
  simp [includedEdgesPath]

theorem mem_excludedEdgesPath (g : NxGraph α) (data : List α) (e : α × α) :
    e ∈ excludedEdgesPath g data ↔
      e ∈ g.edges ∧ ¬(e ∈ pathEdgeList data ∨ (e.2, e.1) ∈ pathEdgeList data) := by
  simp [excludedEdgesPath, mem_includedEdgesPath]
  tauto

/-- C1.  In both path mode and set mode, the included and excluded edge lists
form a complete, disjoint split of the graph's edge set, and the included and
excluded node lists form a complete, disjoint split of the graph's node set. -/
theorem included_excluded_partition (g : NxGraph α) (data : List α) :
    (∀ n, n ∈ g.nodes ↔ (n ∈ includedNodes g data ∨ n ∈ excludedNodes g data)) ∧
    (∀ n, ¬(n ∈ includedNodes g data ∧ n ∈ excludedNodes g data)) ∧
    (∀ e, e ∈ g.edges ↔ (e ∈ includedEdgesPath g data ∨ e ∈ excludedEdgesPath g data)) ∧
    (∀ e, ¬(e ∈ includedEdgesPath g data ∧ e ∈ excludedEdgesPath g data)) ∧
    (∀ e, e ∈ g.edges ↔ (e ∈ includedEdgesSet g data ∨ e ∈ excludedEdgesSet g data)) ∧
    (∀ e, ¬(e ∈ includedEdgesSet g data ∧ e ∈ excludedEdgesSet g data)) := by
  refine ⟨fun n => ?_, fun n => ?_, fun e => ?_, fun e => ?_, fun e => ?_, fun e => ?_⟩ <;>
    simp only [mem_includedNodes, mem_excludedNodes, mem_includedEdgesPath,
      mem_excludedEdgesPath, mem_includedEdgesSet, mem_excludedEdgesSet] <;>
    tauto

/-- C3.  In set mode, a graph edge is classified as included iff both of its
endpoints belong to the solution collection, and every other graph edge is
classified as excluded; `postprocess` in set mode renders exactly these two
lists. -/
theorem set_mode_classification (v : GraphVisualizer α) (g : NxGraph α) (data : List α)
    (hg : v.g = some g) (hs : v.solution_type = "set") :
    postprocess v data =
      .ok (renderTrace v g data (includedEdgesSet g data) (excludedEdgesSet g data), data) ∧
    (∀ e, e ∈ includedEdgesSet g data ↔ e ∈ g.edges ∧ e.1 ∈ data ∧ e.2 ∈ data) ∧
    (∀ e, e ∈ excludedEdgesSet g data ↔ e ∈ g.edges ∧ ¬(e.1 ∈ data ∧ e.2 ∈ data)) := by
  refine ⟨?_, fun e => mem_includedEdgesSet g data e, fun e => mem_excludedEdgesSet g data e⟩
  simp [postprocess, hg, hs]

/-- C3 witness: the spec scenario graph with edges (0,1),(1,2),(2,3),(3,0)
and set-mode solution [0,2]: no edge has both endpoints in the solution. -/
theorem set_mode_classification_witness :
    postprocess ({ solution_type := "set", g := some ⟨[0, 1, 2, 3], [(0, 1), (1, 2), (2, 3), (3, 0)]⟩ } : GraphVisualizer ℕ) [0, 2] =
      .ok (renderTrace ({ solution_type := "set", g := some ⟨[0, 1, 2, 3], [(0, 1), (1, 2), (2, 3), (3, 0)]⟩ } : GraphVisualizer ℕ)
        ⟨[0, 1, 2, 3], [(0, 1), (1, 2), (2, 3), (3, 0)]⟩ [0, 2]
        (includedEdgesSet ⟨[0, 1, 2, 3], [(0, 1), (1, 2), (2, 3), (3, 0)]⟩ [0, 2])
        (excludedEdgesSet ⟨[0, 1, 2, 3], [(0, 1), (1, 2), (2, 3), (3, 0)]⟩ [0, 2]), [0, 2]) ∧
    includedEdgesSet (⟨[0, 1, 2, 3], [(0, 1), (1, 2), (2, 3), (3, 0)]⟩ : NxGraph ℕ) [0, 2] = [] := by
  refine ⟨(set_mode_classification _ _ [0, 2] rfl rfl).1, by decide⟩

/-- C9.  On a visualizer whose stored graph attribute is absent (in
particular a freshly constructed one, where `g` defaults to `none`),
`postprocess` fails immediately with the `AttributeError` from reading
`self.g`, performing no drawing. -/
theorem postprocess_before_preprocess (v : GraphVisualizer α) (data : List α)
    (h : v.g = none) :
    ({ } : GraphVisualizer α).g = none ∧
    postprocess v data = .error .attributeError := by
  refine ⟨rfl, ?_⟩
  simp [postprocess, h]

/-- C9 witness: a freshly constructed default visualizer over ℕ. -/
theorem postprocess_before_preprocess_witness :
    ({ } : GraphVisualizer ℕ).g = none ∧
    postprocess ({ } : GraphVisualizer ℕ) [0, 1] = .error .attributeError :=
  postprocess_before_preprocess ({ } : GraphVisualizer ℕ) [0, 1] rfl

/-- C10.  In set mode, the computed partitions depend only on which elements
occur in the solution collection: two solutions with the same members (in any
order, with any multiplicity) yield identical node and edge partitions. -/
theorem set_mode_extensional (g : NxGraph α) (d₁ d₂ : List α)
    (h : ∀ x, x ∈ d₁ ↔ x ∈ d₂) :
    includedNodes g d₁ = includedNodes g d₂ ∧
    excludedNodes g d₁ = excludedNodes g d₂ ∧
    includedEdgesSet g d₁ = includedEdgesSet g d₂ ∧
    excludedEdgesSet g d₁ = excludedEdgesSet g d₂ := by
  have hinc : includedEdgesSet g d₁ = includedEdgesSet g d₂ := by
    unfold includedEdgesSet
    refine List.filter_congr fun e _ => ?_
    simp [h e.1, h e.2]
  refine ⟨?_, ?_, hinc, ?_⟩
  · unfold includedNodes
    refine List.filter_congr fun n _ => ?_
    simp [h n]
  · unfold excludedNodes
    refine List.filter_congr fun n _ => ?_
    simp [h n]
  · unfold excludedEdgesSet
    rw [hinc]

/-- C10 witness: the solutions [1, 2, 2] and [2, 1] have the same members, so
all four partitions coincide on a concrete graph. -/
theorem set_mode_extensional_witness :
    includedNodes (⟨[1, 2, 3], [(1, 2), (2, 3)]⟩ : NxGraph ℕ) [1, 2, 2] =
      includedNodes ⟨[1, 2, 3], [(1, 2), (2, 3)]⟩ [2, 1] ∧
    excludedNodes (⟨[1, 2, 3], [(1, 2), (2, 3)]⟩ : NxGraph ℕ) [1, 2, 2] =
      excludedNodes ⟨[1, 2, 3], [(1, 2), (2, 3)]⟩ [2, 1] ∧
    includedEdgesSet (⟨[1, 2, 3], [(1, 2), (2, 3)]⟩ : NxGraph ℕ) [1, 2, 2] =
      includedEdgesSet ⟨[1, 2, 3], [(1, 2), (2, 3)]⟩ [2, 1] ∧
    excludedEdgesSet (⟨[1, 2, 3], [(1, 2), (2, 3)]⟩ : NxGraph ℕ) [1, 2, 2] =
      excludedEdgesSet ⟨[1, 2, 3], [(1, 2), (2, 3)]⟩ [2, 1] :=
  set_mode_extensional _ [1, 2, 2] [2, 1] (fun x => by simp [or_comm])

/-! ## Path-mode implied edge list -/

omit [DecidableEq α] in
theorem consecutivePairs_length (l : List α) :
    (consecutivePairs l).length = l.length - 1 := by
  induction l with
  | nil => rfl
  | cons x xs ih =>
    cases xs with
    | nil => rfl
    | cons y rest =>
      have h : consecutivePairs (x :: y :: rest) = (x, y) :: consecutivePairs (y :: rest) := rfl
      rw [h]
      simp only [List.length_cons] at ih ⊢
      omega

omit [DecidableEq α] in
theorem mem_consecutivePairs (l : List α) (a b : α) :
    (a, b) ∈ consecutivePairs l ↔ ∃ i, l.get? i = some a ∧ l.get? (i + 1) = some b := by
  induction l with
  | nil => simp [consecutivePairs]
  | cons x xs ih =>
    cases xs with
    | nil =>
      simp only [consecutivePairs, List.not_mem_nil, false_iff]
      rintro ⟨i, h1, h2⟩
      cases i <;> simp_all
    | cons y rest =>
      have h : consecutivePairs (x :: y :: rest) = (x, y) :: consecutivePairs (y :: rest) := rfl
      rw [h, List.mem_cons, ih]
      constructor
      · rintro (h | ⟨i, h1, h2⟩)
        · obtain ⟨rfl, rfl⟩ := Prod.mk.injEq .. ▸ h
          exact ⟨0, rfl, rfl⟩
        · exact ⟨i + 1, h1, h2⟩
      · rintro ⟨i, h1, h2⟩
        cases i with
        | zero =>
          left
          simp_all
        | succ j =>
          right
          exact ⟨j, h1, h2⟩

omit [DecidableEq α] in
theorem pathEdgeList_short (data : List α) (h : data.length ≤ 2) :
    pathEdgeList data = consecutivePairs data := by
  unfold pathEdgeList
  rw [if_neg (by omega)]

omit [DecidableEq α] in
theorem pathEdgeList_long (data : List α) (h : 2 < data.length) :
    ∃ lst fst, data.getLast? = some lst ∧ data.head? = some fst ∧
      pathEdgeList data = consecutivePairs data ++ [(lst, fst)] := by
  have hne : data ≠ [] := by
    intro h'
    subst h'
    simp at h
  obtain ⟨lst, hlst⟩ := Option.isSome_iff_exists.mp (List.getLast?_isSome.mpr hne)
  have hex : ∃ fst, data.head? = some fst := by
    cases data with
    | nil => simp at h
    | cons a as => exact ⟨a, rfl⟩
  obtain ⟨fst, hfst⟩ := hex
  refine ⟨lst, fst, hlst, hfst, ?_⟩
  unfold pathEdgeList
  rw [if_pos h, hlst, hfst]

/-- C4.  In path mode the implied edge list connects each consecutive pair of
solution elements; a closing edge from the last element to the first is added
exactly when the solution has more than two elements, so a solution of length
at most 2 yields `len - 1` implied edges and no closing edge, while a longer
solution yields exactly `len` implied edges.  A graph edge is included iff it
matches an implied pair in either direction. -/
theorem path_mode_implied_edges (g : NxGraph α) (data : List α) :
    (∀ a b, (a, b) ∈ consecutivePairs data ↔
      ∃ i, data.get? i = some a ∧ data.get? (i + 1) = some b) ∧
    (data.length ≤ 2 → pathEdgeList data = consecutivePairs data ∧
      (pathEdgeList data).length = data.length - 1) ∧
    (2 < data.length → (pathEdgeList data).length = data.length ∧
      ∃ lst fst, data.getLast? = some lst ∧ data.head? = some fst ∧
        pathEdgeList data = consecutivePairs data ++ [(lst, fst)]) ∧
    (∀ e, e ∈ includedEdgesPath g data ↔
      e ∈ g.edges ∧ (e ∈ pathEdgeList data ∨ (e.2, e.1) ∈ pathEdgeList data)) := by
  refine ⟨mem_consecutivePairs data, fun h => ?_, fun h => ?_,
    fun e => mem_includedEdgesPath g data e⟩
  · rw [pathEdgeList_short data h]
    exact ⟨rfl, consecutivePairs_length data⟩
  · obtain ⟨lst, fst, hlst, hfst, heq⟩ := pathEdgeList_long data h
    refine ⟨?_, lst, fst, hlst, hfst, heq⟩
    rw [heq]
    simp only [List.length_append, List.length_singleton, consecutivePairs_length]
    omega

/-- C4 witness: on the solution [0, 1, 2, 3] the implied list has a closing
edge and exactly 4 entries; on [0, 1] it is the single consecutive pair. -/
theorem path_mode_implied_edges_witness :
    (pathEdgeList [0, 1, 2, 3]).length = ([0, 1, 2, 3] : List ℕ).length ∧
    pathEdgeList ([0, 1] : List ℕ) = consecutivePairs [0, 1] :=
  ⟨((path_mode_implied_edges (⟨[], []⟩ : NxGraph ℕ) [0, 1, 2, 3]).2.2.1 (by decide)).1,
   ((path_mode_implied_edges (⟨[], []⟩ : NxGraph ℕ) [0, 1]).2.1 (by decide)).1⟩

/-- C2.  Whenever the configured `solution_type` is neither "path" nor "set",
`postprocess` fails with the `ValueError` carrying the invalid value, and no
drawing trace is produced (the error is raised during render; construction of
the dataclass itself cannot fail in this model). -/
theorem invalid_solution_type_error (v : GraphVisualizer α) (g : NxGraph α) (data : List α)
    (hg : v.g = some g) (hp : v.solution_type ≠ "path") (hs : v.solution_type ≠ "set") :
    postprocess v data = .error (.valueError v.solution_type) ∧
    ∀ trace sol, postprocess v data ≠ .ok (trace, sol) := by
  have herr : postprocess v data = .error (.valueError v.solution_type) := by
    simp [postprocess, hg, hp, hs]
  exact ⟨herr, fun trace sol hok => by rw [herr] at hok; exact Except.noConfusion hok⟩

/-- C2 witness: `solution_type = "cycle"` on a one-node graph. -/
theorem invalid_solution_type_error_witness :
    postprocess ({ solution_type := "cycle", g := some ⟨[0], []⟩ } : GraphVisualizer ℕ) [0] =
      .error (.valueError "cycle") :=
  (invalid_solution_type_error ({ solution_type := "cycle", g := some ⟨[0], []⟩ } : GraphVisualizer ℕ)
    ⟨[0], []⟩ [0] rfl (by decide) (by decide)).1

/-! ## The drawing trace -/

theorem plt_legend_mem_renderTrace (v : GraphVisualizer α) (g : NxGraph α) (data : List α)
    (inc exc : List (α × α)) (entries : List LegendEntry) :
    DrawCmd.plt_legend entries ∈ renderTrace v g data inc exc ↔
      ((v.highlight_nodes || v.highlight_edges) = true ∧ entries = legend_elements v) := by
  unfold renderTrace
  by_cases h1 : (v.highlight_nodes || v.highlight_edges) = true <;>
    by_cases h2 : v.save_path = "" <;>
      by_cases h3 : v.show_plot = true <;>
        simp_all

theorem postprocess_ok_trace (v : GraphVisualizer α) (data : List α)
    (trace : List (DrawCmd α)) (sol : List α)
    (hok : postprocess v data = .ok (trace, sol)) :
    ∃ g inc exc, trace = renderTrace v g data inc exc ∧ sol = data := by
  unfold postprocess at hok
  cases hv : v.g with
  | none =>
    rw [hv] at hok
    exact Except.noConfusion hok
  | some g =>
    rw [hv] at hok
    dsimp only at hok
    by_cases hp : v.solution_type = "path"
    · rw [if_pos hp] at hok
      simp only [Except.ok.injEq, Prod.mk.injEq] at hok
      exact ⟨g, includedEdgesPath g data, excludedEdgesPath g data, hok.1.symm, hok.2.symm⟩
    · rw [if_neg hp] at hok
      by_cases hs : v.solution_type = "set"
      · rw [if_pos hs] at hok
        simp only [Except.ok.injEq, Prod.mk.injEq] at hok
        exact ⟨g, includedEdgesSet g data, excludedEdgesSet g data, hok.1.symm, hok.2.symm⟩
      · rw [if_neg hs] at hok
        exact Except.noConfusion hok

/-- C5.  `preprocess` returns the Graph value it received unchanged, every
successful `postprocess` returns the Solution value it received unchanged,
and with a stored graph and a valid `solution_type` the call succeeds. -/
theorem passthrough_operations (v : GraphVisualizer α) (gr : NxGraph α) (data : List α) :
    (preprocess v gr).2 = gr ∧
    (∀ out, postprocess v data = .ok out → out.2 = data) ∧
    (v.g = some gr → (v.solution_type = "path" ∨ v.solution_type = "set") →
      ∃ trace, postprocess v data = .ok (trace, data)) := by
  refine ⟨rfl, ?_, ?_⟩
  · intro out hok
    obtain ⟨g, inc, exc, -, hsol⟩ := postprocess_ok_trace v data out.1 out.2 (by rw [hok])
    exact hsol
  · rintro hg (hp | hs)
    · exact ⟨renderTrace v gr data (includedEdgesPath gr data) (excludedEdgesPath gr data),
        by simp [postprocess, hg, hp]⟩
    · exact ⟨renderTrace v gr data (includedEdgesSet gr data) (excludedEdgesSet gr data),
        by simp [postprocess, hg, hs]⟩

/-- C5 witness: a concrete preprocess passthrough and a concrete successful
postprocess returning its input solution. -/
theorem passthrough_operations_witness :
    (preprocess ({ } : GraphVisualizer ℕ) ⟨[0], []⟩).2 = (⟨[0], []⟩ : NxGraph ℕ) ∧
    ∃ trace, postprocess ({ g := some ⟨[0], []⟩ } : GraphVisualizer ℕ) [0] = .ok (trace, [0]) :=
  ⟨(passthrough_operations ({ } : GraphVisualizer ℕ) ⟨[0], []⟩ [0]).1,
   (passthrough_operations ({ g := some ⟨[0], []⟩ } : GraphVisualizer ℕ) ⟨[0], []⟩ [0]).2.2
     rfl (Or.inl rfl)⟩

/-- C6.  A successful render draws a legend iff at least one highlight flag
is enabled, and any legend drawn has exactly the two entries labelled
"Included" and "Excluded". -/
theorem legend_iff_highlight (v : GraphVisualizer α) (data : List α)
    (trace : List (DrawCmd α)) (sol : List α)
    (hok : postprocess v data = .ok (trace, sol)) :
    ((∃ entries, DrawCmd.plt_legend entries ∈ trace) ↔
      (v.highlight_nodes = true ∨ v.highlight_edges = true)) ∧
    (∀ entries, DrawCmd.plt_legend entries ∈ trace →
      entries.map LegendEntry.label = ["Included", "Excluded"]) := by
  obtain ⟨g, inc, exc, rfl, -⟩ := postprocess_ok_trace v data trace sol hok
  constructor
  · simp only [plt_legend_mem_renderTrace, Bool.or_eq_true]
    constructor
    · rintro ⟨entries, hcond, -⟩
      exact hcond
    · intro hcond
      exact ⟨legend_elements v, by simpa using hcond, rfl⟩
  · intro entries hmem
    obtain ⟨-, rfl⟩ := (plt_legend_mem_renderTrace v g data inc exc entries).mp hmem
    simp [legend_elements]

/-- Demo graph for concrete witnesses: three nodes in a line. -/
def gDemo : NxGraph ℕ := ⟨[0, 1, 2], [(0, 1), (1, 2)]⟩

/-- Demo configuration: all defaults except set mode, graph stored
(`highlight_nodes = highlight_edges = false`). -/
def vPlain : GraphVisualizer ℕ := { solution_type := "set", g := some gDemo }

/-- Demo configuration with node highlighting enabled, path mode, graph stored. -/
def vNodes : GraphVisualizer ℕ := { highlight_nodes := true, g := some gDemo }

/-- C6 witness: with node highlighting enabled a legend is drawn. -/
theorem legend_iff_highlight_witness :
    (∃ entries, DrawCmd.plt_legend entries ∈
        renderTrace vNodes gDemo [0] (includedEdgesPath gDemo [0]) (excludedEdgesPath gDemo [0])) ↔
      (vNodes.highlight_nodes = true ∨ vNodes.highlight_edges = true) :=
  (legend_iff_highlight vNodes [0]
    (renderTrace vNodes gDemo [0] (includedEdgesPath gDemo [0]) (excludedEdgesPath gDemo [0]))
    [0] rfl).1

/-- C7 counterexample: with both highlight flags disabled (`vPlain`) the
render still draws included edges at full width `edge_width = 1` but
excluded edges at `edge_width * 0.8`, and included labels bold but excluded
labels regular — so included and excluded elements are NOT drawn identically
in every drawn attribute, refuting the claim at this concrete input. -/
theorem highlight_disabled_styling_differs :
    vPlain.highlight_nodes = false ∧ vPlain.highlight_edges = false ∧
    postprocess vPlain [0, 1] =
      .ok (renderTrace vPlain gDemo [0, 1] [(0, 1)] [(1, 2)], [0, 1]) ∧
    DrawCmd.draw_networkx_edges [(0, 1)] vPlain.edge_width "black"
      ∈ renderTrace vPlain gDemo [0, 1] [(0, 1)] [(1, 2)] ∧
    DrawCmd.draw_networkx_edges [(1, 2)] (vPlain.edge_width * (4 / 5)) "black"
      ∈ renderTrace vPlain gDemo [0, 1] [(0, 1)] [(1, 2)] ∧
    vPlain.edge_width ≠ vPlain.edge_width * (4 / 5) ∧
    DrawCmd.draw_networkx_labels (includedNodes gDemo [0, 1]) vPlain.font_size true "white"
      ∈ renderTrace vPlain gDemo [0, 1] [(0, 1)] [(1, 2)] ∧
    includedNodes gDemo [0, 1] = [0, 1] ∧
    DrawCmd.draw_networkx_labels (excludedNodes gDemo [0, 1]) vPlain.font_size false "white"
      ∈ renderTrace vPlain gDemo [0, 1] [(0, 1)] [(1, 2)] ∧
    excludedNodes gDemo [0, 1] = [2] := by
  refine ⟨rfl, rfl, rfl, ?_, ?_, ?_, ?_, rfl, ?_, rfl⟩
  · simp [renderTrace, vPlain, mark_solution_edges]
  · simp [renderTrace]
  · show (1 : ℚ) ≠ 1 * (4 / 5)
    norm_num
  · simp [renderTrace]
  · simp [renderTrace]

/-- C7 amended: when a highlight flag is enabled the corresponding included
elements are drawn with the distinguishing color "red" (different from the
excluded elements' "black"); when a flag is disabled the included elements
use the same color "black" as the excluded ones — but the included/excluded
styling is not identical in every attribute, since included edges are always
drawn at full width and excluded at 80% width (and included labels bold). -/
theorem highlight_color_styling (v : GraphVisualizer α) (g : NxGraph α) (data : List α)
    (inc exc : List (α × α)) :
    DrawCmd.draw_networkx_nodes (includedNodes g data) v.node_size (mark_solution_nodes v)
      ∈ renderTrace v g data inc exc ∧
    DrawCmd.draw_networkx_nodes (excludedNodes g data) v.node_size "black"
      ∈ renderTrace v g data inc exc ∧
    DrawCmd.draw_networkx_edges inc v.edge_width (mark_solution_edges v)
      ∈ renderTrace v g data inc exc ∧
    DrawCmd.draw_networkx_edges exc (v.edge_width * (4 / 5)) "black"
      ∈ renderTrace v g data inc exc ∧
    (v.highlight_nodes = true → mark_solution_nodes v = "red" ∧ mark_solution_nodes v ≠ "black") ∧
    (v.highlight_edges = true → mark_solution_edges v = "red" ∧ mark_solution_edges v ≠ "black") ∧
    (v.highlight_nodes = false → mark_solution_nodes v = "black") ∧
    (v.highlight_edges = false → mark_solution_edges v = "black") := by
  refine ⟨by simp [renderTrace], by simp [renderTrace], by simp [renderTrace],
    by simp [renderTrace], ?_, ?_, ?_, ?_⟩ <;>
    intro h <;>
      simp [mark_solution_nodes, mark_solution_edges, h]

/-- C7 witness: with `highlight_nodes = true` the included-node color is the
distinguishing "red". -/
theorem highlight_color_styling_witness :
    mark_solution_nodes vNodes = "red" ∧ mark_solution_nodes vNodes ≠ "black" :=
  (highlight_color_styling vNodes gDemo [0] [] []).2.2.2.2.1 rfl

/-- C8 counterexample: with the default `highlight_nodes = false` (`vPlain`)
the two separate node draw calls use the SAME fill color "black", refuting
"distinct fill colors for all configurations" at this concrete input. -/
theorem node_fill_color_not_distinct :
    mark_solution_nodes vPlain = "black" ∧
    postprocess vPlain [0, 1] =
      .ok (renderTrace vPlain gDemo [0, 1] [(0, 1)] [(1, 2)], [0, 1]) ∧
    (renderTrace vPlain gDemo [0, 1] [(0, 1)] [(1, 2)]).get? 0 =
      some (DrawCmd.draw_networkx_nodes [0, 1] vPlain.node_size "black") ∧
    (renderTrace vPlain gDemo [0, 1] [(0, 1)] [(1, 2)]).get? 1 =
      some (DrawCmd.draw_networkx_nodes [2] vPlain.node_size "black") :=
  ⟨rfl, rfl, rfl, rfl⟩

/-- C8 amended: on every render the included and excluded node sets are drawn
by two separate draw calls (the first two drawing commands), and their fill
colors differ exactly when `highlight_nodes` is enabled. -/
theorem node_draw_calls_separate (v : GraphVisualizer α) (g : NxGraph α) (data : List α)
    (inc exc : List (α × α)) :
    (renderTrace v g data inc exc).get? 0 =
      some (DrawCmd.draw_networkx_nodes (includedNodes g data) v.node_size
        (mark_solution_nodes v)) ∧
    (renderTrace v g data inc exc).get? 1 =
      some (DrawCmd.draw_networkx_nodes (excludedNodes g data) v.node_size "black") ∧
    (mark_solution_nodes v ≠ "black" ↔ v.highlight_nodes = true) := by
  refine ⟨rfl, rfl, ?_⟩
  cases h : v.highlight_nodes <;> simp [mark_solution_nodes, h]

/-- C8 witness: with node highlighting enabled the two node draw calls use
distinct fill colors. -/
theorem node_draw_calls_separate_witness :
    (renderTrace vNodes gDemo [0] [] []).get? 0 =
      some (DrawCmd.draw_networkx_nodes (includedNodes gDemo [0]) vNodes.node_size
        (mark_solution_nodes vNodes)) ∧
    (renderTrace vNodes gDemo [0] [] []).get? 1 =
      some (DrawCmd.draw_networkx_nodes (excludedNodes gDemo [0]) vNodes.node_size "black") ∧
    (mark_solution_nodes vNodes ≠ "black" ↔ vNodes.highlight_nodes = true) :=
  node_draw_calls_separate vNodes gDemo [0] [] []
